import Mathlib

/-!
Shallow embedding of the cat-tabs `Tabs` component
(`src/components/Tabs.tsx`): the mount-time validation pass and the
activation controller (`handleTabClick`, `handleKeyDown`,
`handleTabFocus`), together with a small trace semantics over render
inputs, used to settle the specification claims below.
-/

/-- Opaque renderable content (`ReactNode`).  Its structure is irrelevant
to the widget; only presence (vs. JS `null`/`undefined`, modelled by
wrapping in `Option`) matters.  `text ""` models a falsy-but-defined
renderable such as the empty string. -/
inductive ReactNode where
  | text (s : String)
  | fragment
deriving DecidableEq, Inhabited

/-- A possibly-malformed tab entry as seen at runtime: each of the three
required fields of the `TabObject` interface may be absent
(`none` models the JS field being `undefined`/`null`). -/
structure TabInput where
  id : Option String
  label : Option String
  content : Option ReactNode
deriving DecidableEq, Inhabited

/-- JS truthiness test for a string-valued field that may be absent:
`!tab.id` holds exactly when the field is `undefined`/`null` or the
empty string. -/
def jsFalsyStr : Option String → Bool
  | none => true
  | some s => s == ""

/-- JS `Boolean(x)` for a string-valued field, as used by
`filter(Boolean)` on the collected ids. -/
def jsTruthyStr (o : Option String) : Bool := !(jsFalsyStr o)

/-- The problem string pushed for a missing required field
(`Tab at index i is missing required 'field' property.`). -/
def missingFieldMsg (i : Nat) (field : String) : String :=
  "Tab at index " ++ toString i ++ " is missing required \x27" ++ field ++ "\x27 property."

/-- The problem string pushed for an empty tab list. -/
def noTabsMsg : String := "No tabs provided. Please provide at least one tab."

/-- The problem string pushed when duplicate ids are detected. -/
def dupMsg : String := "All tabs must have unique IDs."

/-- The problems pushed for the entry at index `i` by the body of the
`tabs.forEach((tab, index) => ...)` loop: missing `id`, then missing
`label` (both via JS falsiness), then missing `content` (only when
`undefined`/`null`). -/
def entryErrors (i : Nat) (t : TabInput) : List String :=
  (if jsFalsyStr t.id then [missingFieldMsg i "id"] else []) ++
  (if jsFalsyStr t.label then [missingFieldMsg i "label"] else []) ++
  (if t.content = none then [missingFieldMsg i "content"] else [])

/-- The validation pass of the `Tabs` component (the `useEffect` at
lines 181-219 of `Tabs.tsx`): `none` models a non-array `tabs` prop
(`Array.isArray` fails, no errors); an empty array yields the single
no-tabs problem; otherwise the per-entry loop runs in order and then
the duplicate-id check (`tabs.map(tab => tab.id).filter(Boolean)`
compared against its `Set` of distinct values) appends at most one
problem. -/
def validateTabs (tabs : Option (List TabInput)) : List String :=
  match tabs with
  | none => []
  | some ts =>
    if ts.length = 0 then
      [noTabsMsg]
    else
      let entryErrs := ts.enum.foldl (fun acc p => acc ++ entryErrors p.1 p.2) []
      let ids := (ts.map TabInput.id).filter jsTruthyStr
      entryErrs ++ (if ids.dedup.length ≠ ids.length then [dupMsg] else [])

/-- Specification-side per-entry problems, transcribed from the words of
spec §4.1: one problem per missing required field, in the fixed order
`id`, `label`, `content`, where `id`/`label` count as missing when
absent or empty and `content` only when `null`/`undefined`. -/
def specEntryProblems (i : Nat) (t : TabInput) : List String :=
  (if t.id = none ∨ t.id = some "" then [missingFieldMsg i "id"] else []) ++
  (if t.label = none ∨ t.label = some "" then [missingFieldMsg i "label"] else []) ++
  (if t.content = none then [missingFieldMsg i "content"] else [])

/-- Specification-side traversal: all problems for the entry at index
`n` precede all problems for later entries. -/
def specPerEntry : Nat → List TabInput → List String
  | _, [] => []
  | n, t :: rest => specEntryProblems n t ++ specPerEntry (n + 1) rest

/-- The non-empty id carried by an entry, when it has one (spec §4.1:
"collect all non-empty id values"). -/
def nonEmptyId (t : TabInput) : Option String :=
  match t.id with
  | none => none
  | some s => if s = "" then none else some s

/-- All non-empty id values of the list, in order. -/
def nonEmptyIds (ts : List TabInput) : List String := ts.filterMap nonEmptyId

/-- Specification-side duplicate check: exactly one problem when any
duplicate exists among the non-empty ids. -/
def specDup (ts : List TabInput) : List String :=
  if (nonEmptyIds ts).Nodup then [] else [dupMsg]

/-- Specification-side validator output for a non-empty list: per-entry
problems in ascending index order followed by the single duplicate-id
problem if triggered (spec §4.1 "Output ordering"). -/
def specProblems (ts : List TabInput) : List String :=
  specPerEntry 0 ts ++ specDup ts

/-- A raw element of the `tabs` array as JS sees it: either a
`null`/`undefined` element, or an object with possibly-missing
fields. -/
inductive EntryInput where
  | nullEntry : EntryInput
  | obj : TabInput → EntryInput
deriving DecidableEq

/-- The JS `TypeError` raised by reading `.id` off a `null` element. -/
def typeErrorMsg : String :=
  "TypeError: Cannot read properties of null (reading \x27id\x27)"

/-- Reading `tab.id` off a raw element: throws on `null`/`undefined`. -/
def entryIdE : EntryInput → Except String (Option String)
  | .nullEntry => .error typeErrorMsg
  | .obj t => .ok t.id

/-- The `forEach` body on a raw element: the first field access
(`tab.id`) throws on a `null`/`undefined` element; on an object it
yields the same problems as `entryErrors`. -/
def entryErrorsE (i : Nat) (e : EntryInput) : Except String (List String) :=
  match e with
  | .nullEntry => .error typeErrorMsg
  | .obj t => .ok (entryErrors i t)

/-- The validation pass run over raw JS elements, with JS property
access modelled as fallible: the per-entry loop, then the id
collection, each propagate the `TypeError` raised by touching a
`null`/`undefined` element. -/
def validateTabsE (tabs : Option (List EntryInput)) : Except String (List String) :=
  match tabs with
  | none => .ok []
  | some ts =>
    if ts.length = 0 then .ok [noTabsMsg]
    else do
      let entryErrs ← ts.enum.foldlM
        (fun acc p => do
          let errs ← entryErrorsE p.1 p.2
          pure (acc ++ errs)) []
      let rawIds ← ts.mapM entryIdE
      let ids := rawIds.filter jsTruthyStr
      pure (entryErrs ++ (if ids.dedup.length ≠ ids.length then [dupMsg] else []))

/-- A well-typed tab descriptor, matching the `TabObject` interface used
by the activation controller (the rendered list is well-typed by the
time the handlers run over it). -/
structure TabObject where
  id : String
  label : String
  content : ReactNode
deriving DecidableEq, Inhabited

/-- The outcome of one click or focus handler invocation: the internal
active-tab id after the handler (unchanged in controlled mode) and the
descriptor passed to `onTabChange`, if the notification fired. -/
structure StepResult where
  internalActiveTabId : String
  notified : Option TabObject
deriving DecidableEq

/-- The outcome of one keydown handler invocation; `focusTarget` is the
id of the tab whose affordance the handler imperatively focuses. -/
structure NavResult where
  internalActiveTabId : String
  notified : Option TabObject
  focusTarget : Option String
deriving DecidableEq

/-- The arrow keys the keydown handler distinguishes; `other` stands for
every key it ignores. -/
inductive Key where
  | arrowLeft
  | arrowRight
  | other
deriving DecidableEq

/-- The seed of the `internalActiveTabId` state:
`tabs && tabs.length > 0 ? tabs[0].id : ''`, where `none` models a
`null`/`undefined` `tabs` prop. -/
def initialInternalActiveTabId (tabs : Option (List TabObject)) : String :=
  match tabs with
  | some (t :: _) => t.id
  | _ => ""

/-- `currentActiveTabId = isControlled ? activeTabId : internalActiveTabId`,
where `ctrl` is the optional `activeTabId` prop and presence of the prop
means controlled mode. -/
def currentActiveTabId (ctrl : Option String) (internal : String) : String :=
  match ctrl with
  | some a => a
  | none => internal

/-- JS `Array.prototype.findIndex`: index of the first match, `-1` when
none matches. -/
def jsFindIndex (p : α → Bool) : List α → Int
  | [] => -1
  | x :: xs =>
    if p x then 0
    else
      let r := jsFindIndex p xs
      if r = -1 then -1 else r + 1

/-- JS array subscript with an integer index: `undefined` outside
`[0, length)`. -/
def jsGetElem (l : List α) (i : Int) : Option α :=
  if 0 ≤ i then l.get? i.toNat else none

/-- `handleTabClick`: in uncontrolled mode set the internal id to the
clicked id; look the descriptor up and notify when found.  There is no
already-active guard. -/
def handleTabClick (tabs : List TabObject) (ctrl : Option String)
    (internal : String) (tabId : String) : StepResult :=
  ⟨if ctrl.isSome then internal else tabId,
   tabs.find? (fun t => t.id == tabId)⟩

/-- `handleKeyDown`: on ArrowLeft/ArrowRight, find the index of the
current active id (`-1` when absent), step it with wraparound
(`currentIndex > 0 ? currentIndex - 1 : tabs.length - 1`, resp.
`currentIndex < tabs.length - 1 ? currentIndex + 1 : 0`), and if the
resulting subscript yields a tab: update the internal id (uncontrolled
mode), notify with the descriptor, and focus its affordance.  Other
keys are ignored. -/
def handleKeyDown (tabs : List TabObject) (ctrl : Option String)
    (internal : String) (key : Key) : NavResult :=
  match key with
  | .other => ⟨internal, none, none⟩
  | k =>
    let current := currentActiveTabId ctrl internal
    let currentIndex := jsFindIndex (fun t => t.id == current) tabs
    let nextIndex : Int :=
      if k = .arrowLeft then
        if currentIndex > 0 then currentIndex - 1 else (tabs.length : Int) - 1
      else
        if currentIndex < (tabs.length : Int) - 1 then currentIndex + 1 else 0
    match jsGetElem tabs nextIndex with
    | some nextTab =>
      ⟨if ctrl.isSome then internal else nextTab.id, some nextTab, some nextTab.id⟩
    | none => ⟨internal, none, none⟩

/-- `handleTabFocus`: guarded by `tabId !== currentActiveTabId`; when the
focused tab differs from the active one it behaves like a click,
otherwise nothing happens and no notification fires. -/
def handleTabFocus (tabs : List TabObject) (ctrl : Option String)
    (internal : String) (tabId : String) : StepResult :=
  if tabId ≠ currentActiveTabId ctrl internal then
    ⟨if ctrl.isSome then internal else tabId,
     tabs.find? (fun t => t.id == tabId)⟩
  else
    ⟨internal, none⟩

/-- One user event delivered to the rendered widget. -/
inductive Event where
  | click (tabId : String)
  | focus (tabId : String)
  | keydown (k : Key)
deriving DecidableEq

/-- The internal active-tab id after one event is handled under the
render inputs `tabs` and `ctrl`. -/
def stepInternal (tabs : List TabObject) (ctrl : Option String)
    (internal : String) : Event → String
  | .click t => (handleTabClick tabs ctrl internal t).internalActiveTabId
  | .focus t => (handleTabFocus tabs ctrl internal t).internalActiveTabId
  | .keydown k => (handleKeyDown tabs ctrl internal k).internalActiveTabId

/-- Click and focus events originate from the rendered list, so their
target id is an id of the current list; keydown carries no target. -/
def validEvent (tabs : List TabObject) : Event → Prop
  | .click t => t ∈ tabs.map TabObject.id
  | .focus t => t ∈ tabs.map TabObject.id
  | .keydown _ => True

/-- One render-plus-event step of the widget's life: the host may supply
a different tab list and a different (or no) `activeTabId` prop on each
render, then delivers one event. -/
structure Frame where
  tabs : List TabObject
  ctrl : Option String
  event : Event
deriving DecidableEq

/-- The internal active-tab id after mounting with `initTabs` and
processing the given frames in order. -/
def runTrace (initTabs : Option (List TabObject)) (frames : List Frame) : String :=
  frames.foldl (fun internal f => stepInternal f.tabs f.ctrl internal f.event)
    (initialInternalActiveTabId initTabs)

/-- The spec §4.2 state-machine invariant: the active id is empty (empty
list) or names a tab of the current list. -/
def activeIdInvariant (tabs : List TabObject) (active : String) : Prop :=
  (tabs = [] ∧ active = "") ∨ active ∈ tabs.map TabObject.id

/-- A three-tab valid list used to instantiate several witnesses. -/
def demoTabs : List TabObject :=
  [⟨"a", "Tab A", .fragment⟩, ⟨"b", "Tab B", .fragment⟩, ⟨"c", "Tab C", .fragment⟩]

example : validateTabs (some [⟨some "a", some "A", some .fragment⟩]) = [] := by decide
example : validateTabs (some [⟨none, some "A", none⟩]) =
    [missingFieldMsg 0 "id", missingFieldMsg 0 "content"] := by decide
example : validateTabs (some [⟨some "a", some "A", some .fragment⟩,
    ⟨some "a", some "B", some .fragment⟩]) = [dupMsg] := by decide
example : validateTabsE (some [.nullEntry]) = .error typeErrorMsg := rfl

theorem foldl_append_eq_bind {α β : Type} (f : α → List β) :
    ∀ (l : List α) (init : List β),
      l.foldl (fun acc x => acc ++ f x) init = init ++ l.flatMap f
  | [], init => by simp
  | x :: xs, init => by
    simp only [List.foldl_cons, List.flatMap_cons]
    rw [foldl_append_eq_bind f xs (init ++ f x), List.append_assoc]

theorem jsFalsyStr_iff (o : Option String) :
    jsFalsyStr o = true ↔ (o = none ∨ o = some "") := by
  cases o with
  | none => simp [jsFalsyStr]
  | some s => simp [jsFalsyStr]

theorem entryErrors_eq_specEntryProblems (i : Nat) (t : TabInput) :
    entryErrors i t = specEntryProblems i t := by
  obtain ⟨tid, tlab, tcon⟩ := t
  cases tid <;> cases tlab <;>
    simp [entryErrors, specEntryProblems, jsFalsyStr]

theorem enumFrom_bind_entryErrors :
    ∀ (l : List TabInput) (n : Nat),
      (List.enumFrom n l).flatMap (fun p => entryErrors p.1 p.2) = specPerEntry n l
  | [], n => rfl
  | t :: rest, n => by
    simp only [List.enumFrom_cons, List.flatMap_cons, specPerEntry]
    rw [enumFrom_bind_entryErrors rest (n + 1), entryErrors_eq_specEntryProblems]

theorem filter_truthy_ids :
    ∀ (l : List TabInput),
      (l.map TabInput.id).filter jsTruthyStr = (nonEmptyIds l).map some
  | [] => rfl
  | t :: rest => by
    have ih := filter_truthy_ids rest
    simp only [List.map_cons, List.filter_cons, nonEmptyIds, List.filterMap_cons]
    rcases ht : t.id with _ | s
    · simp [jsTruthyStr, jsFalsyStr, nonEmptyId, ht, ih, nonEmptyIds]
    · by_cases hs : s = ""
      · subst hs
        simp [jsTruthyStr, jsFalsyStr, nonEmptyId, ht, ih, nonEmptyIds]
      · simp [jsTruthyStr, jsFalsyStr, nonEmptyId, ht, hs, ih, nonEmptyIds]

theorem dedup_length_eq_iff {α : Type} [DecidableEq α] (l : List α) :
    l.dedup.length = l.length ↔ l.Nodup := by
  constructor
  · intro h
    have heq := (List.dedup_sublist l).eq_of_length h
    rw [← heq]
    exact l.nodup_dedup
  · intro h
    rw [List.dedup_eq_self.mpr h]

theorem dupPart_eq_specDup (l : List TabInput) :
    (if ((l.map TabInput.id).filter jsTruthyStr).dedup.length ≠
        ((l.map TabInput.id).filter jsTruthyStr).length then [dupMsg] else [])
      = specDup l := by
  rw [filter_truthy_ids]
  have hc : ((nonEmptyIds l).map some).dedup.length = ((nonEmptyIds l).map some).length
      ↔ (nonEmptyIds l).Nodup := by
    rw [dedup_length_eq_iff, List.nodup_map_iff (Option.some_injective String)]
  unfold specDup
  by_cases h : (nonEmptyIds l).Nodup
  · rw [if_neg (by simp [hc.mpr h]), if_pos h]
  · rw [if_pos (fun he => h (hc.mp he)), if_neg h]

theorem validateTabs_eq_specProblems (ts : List TabInput) (h : ts ≠ []) :
    validateTabs (some ts) = specProblems ts := by
  have h0 : ¬ ts.length = 0 := by simpa [List.length_eq_zero] using h
  simp only [validateTabs, specProblems, if_neg h0]
  rw [show List.enum ts = List.enumFrom 0 ts from rfl,
    foldl_append_eq_bind (fun p => entryErrors p.1 p.2) (List.enumFrom 0 ts) [],
    List.nil_append, enumFrom_bind_entryErrors, dupPart_eq_specDup]

theorem missingFieldMsg_ne_dupMsg (i : Nat) (f : String) :
    missingFieldMsg i f ≠ dupMsg := by
  intro h
  have hd := congrArg String.data h
  rw [missingFieldMsg, dupMsg] at hd
  simp only [String.data_append] at hd
  simp [List.cons_append] at hd

theorem dupMsg_not_mem_specEntryProblems (n : Nat) (t : TabInput) :
    dupMsg ∉ specEntryProblems n t := by
  intro hmem
  unfold specEntryProblems at hmem
  rcases List.mem_append.1 hmem with h | h
  · rcases List.mem_append.1 h with h2 | h2 <;>
    · split at h2 <;> simp at h2
      exact missingFieldMsg_ne_dupMsg n _ h2.symm
  · split at h <;> simp at h
    exact missingFieldMsg_ne_dupMsg n _ h.symm

theorem specPerEntry_count_dupMsg :
    ∀ (n : Nat) (l : List TabInput), (specPerEntry n l).count dupMsg = 0
  | _, [] => rfl
  | n, t :: rest => by
    rw [specPerEntry, List.count_append, specPerEntry_count_dupMsg (n + 1) rest,
      List.count_eq_zero.mpr (dupMsg_not_mem_specEntryProblems n t)]

theorem mem_specPerEntry_of_mem :
    ∀ (l : List TabInput) (n i : Nat) (hi : i < l.length) (x : String),
      x ∈ specEntryProblems (n + i) (l.get ⟨i, hi⟩) → x ∈ specPerEntry n l
  | t :: rest, n, 0, _, x => fun hx =>
    List.mem_append_left _ (by simpa using hx)
  | t :: rest, n, i + 1, hi, x => fun hx => by
    rw [specPerEntry]
    apply List.mem_append_right
    apply mem_specPerEntry_of_mem rest (n + 1) i (by simpa using hi) x
    have harith : n + 1 + i = n + (i + 1) := by omega
    rw [harith]
    simpa using hx

theorem specEntryProblems_eq_nil (n : Nat) (t : TabInput)
    (h1 : jsFalsyStr t.id = false) (h2 : jsFalsyStr t.label = false)
    (h3 : t.content ≠ none) : specEntryProblems n t = [] := by
  have hid : ¬ (t.id = none ∨ t.id = some "") := by
    rw [← jsFalsyStr_iff, h1]; simp
  have hlab : ¬ (t.label = none ∨ t.label = some "") := by
    rw [← jsFalsyStr_iff, h2]; simp
  rw [specEntryProblems, if_neg hid, if_neg hlab, if_neg h3]
  rfl

theorem specPerEntry_nil_of_good :
    ∀ (n : Nat) (l : List TabInput),
      (∀ t ∈ l, jsFalsyStr t.id = false ∧ jsFalsyStr t.label = false ∧
        t.content ≠ none) →
      specPerEntry n l = []
  | _, [], _ => rfl
  | n, t :: rest, h => by
    have ht := h t (List.mem_cons_self t rest)
    rw [specPerEntry, specEntryProblems_eq_nil n t ht.1 ht.2.1 ht.2.2,
      specPerEntry_nil_of_good (n + 1) rest
        (fun u hu => h u (List.mem_cons_of_mem t hu)), List.nil_append]

theorem jsFindIndex_bounds {α : Type} (p : α → Bool) :
    ∀ (l : List α), -1 ≤ jsFindIndex p l ∧ jsFindIndex p l < (l.length : Int)
  | [] => by simp [jsFindIndex]
  | x :: xs => by
    have ih := jsFindIndex_bounds p xs
    by_cases h : p x
    · simp [jsFindIndex, h]
    · simp [jsFindIndex, h]
      split <;> (constructor <;> push_cast <;> omega)

theorem jsFindIndex_get_of_nodup :
    ∀ (l : List TabObject), (l.map TabObject.id).Nodup →
      ∀ (i : Nat) (hi : i < l.length),
        jsFindIndex (fun t => t.id == (l.get ⟨i, hi⟩).id) l = (i : Int)
  | t :: rest, _, 0, _ => by simp [jsFindIndex]
  | t :: rest, hnd, i + 1, hi => by
    have hnd2 : (rest.map TabObject.id).Nodup := (List.nodup_cons.1 hnd).2
    have hirest : i < rest.length := by simpa using hi
    have hget : (t :: rest).get ⟨i + 1, hi⟩ = rest.get ⟨i, hirest⟩ := rfl
    have hmem : (rest.get ⟨i, hirest⟩).id ∈ rest.map TabObject.id :=
      List.mem_map_of_mem TabObject.id (rest.get_mem i hirest)
    have hne : t.id ≠ (rest.get ⟨i, hirest⟩).id := by
      intro he
      exact (List.nodup_cons.1 hnd).1 (he ▸ hmem)
    have ih := jsFindIndex_get_of_nodup rest hnd2 i hirest
    have hb := jsFindIndex_bounds (fun u => u.id == (rest.get ⟨i, hirest⟩).id) rest
    rw [hget]
    simp only [jsFindIndex, beq_eq_false_iff_ne.2 hne, Bool.false_eq_true, if_false, ih]
    rw [if_neg (by omega)]
    push_cast
    omega

theorem jsGetElem_eq_get {α : Type} (l : List α) (i : Nat) (hi : i < l.length) :
    jsGetElem l (i : Int) = some (l.get ⟨i, hi⟩) := by
  rw [jsGetElem, if_pos (by omega), Int.toNat_natCast, List.get?_eq_get hi]

theorem jsGetElem_mem {α : Type} {l : List α} {i : Int} {x : α}
    (h : jsGetElem l i = some x) : x ∈ l := by
  rw [jsGetElem] at h
  split at h
  · exact List.get?_mem h
  · cases h

theorem find_by_id_of_mem :
    ∀ (l : List TabObject) (s : String), s ∈ l.map TabObject.id →
      ∃ t, t ∈ l ∧ t.id = s ∧ l.find? (fun x => x.id == s) = some t
  | t :: rest, s, hmem => by
    by_cases h : t.id = s
    · exact ⟨t, List.mem_cons_self t rest, h,
        by rw [List.find?_cons_of_pos _ (by simp [h])]⟩
    · have hrest : s ∈ rest.map TabObject.id := by
        rw [List.map_cons] at hmem
        rcases List.mem_cons.1 hmem with h2 | h2
        · exact absurd h2.symm h
        · exact h2
      obtain ⟨u, hu1, hu2, hu3⟩ := find_by_id_of_mem rest s hrest
      exact ⟨u, List.mem_cons_of_mem t hu1, hu2,
        by rw [List.find?_cons_of_neg _ (by simp [h]), hu3]⟩


theorem handleKeyDown_arrowLeft (tabs : List TabObject) (ctrl : Option String)
    (internal : String) :
    handleKeyDown tabs ctrl internal Key.arrowLeft =
      (match jsGetElem tabs
          (if jsFindIndex (fun t => t.id == currentActiveTabId ctrl internal) tabs > 0
           then jsFindIndex (fun t => t.id == currentActiveTabId ctrl internal) tabs - 1
           else (tabs.length : Int) - 1) with
       | some nextTab =>
         ⟨if ctrl.isSome then internal else nextTab.id, some nextTab, some nextTab.id⟩
       | none => ⟨internal, none, none⟩) := rfl

theorem handleKeyDown_arrowRight (tabs : List TabObject) (ctrl : Option String)
    (internal : String) :
    handleKeyDown tabs ctrl internal Key.arrowRight =
      (match jsGetElem tabs
          (if jsFindIndex (fun t => t.id == currentActiveTabId ctrl internal) tabs <
              (tabs.length : Int) - 1
           then jsFindIndex (fun t => t.id == currentActiveTabId ctrl internal) tabs + 1
           else 0) with
       | some nextTab =>
         ⟨if ctrl.isSome then internal else nextTab.id, some nextTab, some nextTab.id⟩
       | none => ⟨internal, none, none⟩) := rfl

theorem handleKeyDown_arrow_notifies (tabs : List TabObject) (ctrl : Option String)
    (internal : String) (hne : tabs ≠ []) :
    (∃ t, t ∈ tabs ∧
      handleKeyDown tabs ctrl internal Key.arrowLeft =
        ⟨if ctrl.isSome then internal else t.id, some t, some t.id⟩) ∧
    (∃ t, t ∈ tabs ∧
      handleKeyDown tabs ctrl internal Key.arrowRight =
        ⟨if ctrl.isSome then internal else t.id, some t, some t.id⟩) := by
  have hlen : 0 < tabs.length := List.length_pos.mpr hne
  have hb := jsFindIndex_bounds (fun t => t.id == currentActiveTabId ctrl internal) tabs
  constructor
  · have hni0 : 0 ≤ (if jsFindIndex (fun t => t.id == currentActiveTabId ctrl internal) tabs > 0
          then jsFindIndex (fun t => t.id == currentActiveTabId ctrl internal) tabs - 1
          else (tabs.length : Int) - 1) ∧
        (if jsFindIndex (fun t => t.id == currentActiveTabId ctrl internal) tabs > 0
          then jsFindIndex (fun t => t.id == currentActiveTabId ctrl internal) tabs - 1
          else (tabs.length : Int) - 1) < (tabs.length : Int) := by
      split <;> omega
    obtain ⟨n, hn, hnlt⟩ : ∃ n : Nat,
        (if jsFindIndex (fun t => t.id == currentActiveTabId ctrl internal) tabs > 0
          then jsFindIndex (fun t => t.id == currentActiveTabId ctrl internal) tabs - 1
          else (tabs.length : Int) - 1) = (n : Int) ∧ n < tabs.length := by
      refine ⟨_, (Int.toNat_of_nonneg hni0.1).symm, ?_⟩
      omega
    refine ⟨tabs.get ⟨n, hnlt⟩, tabs.get_mem n hnlt, ?_⟩
    rw [handleKeyDown_arrowLeft, hn, jsGetElem_eq_get tabs n hnlt]
  · have hni0 : 0 ≤ (if jsFindIndex (fun t => t.id == currentActiveTabId ctrl internal) tabs <
            (tabs.length : Int) - 1
          then jsFindIndex (fun t => t.id == currentActiveTabId ctrl internal) tabs + 1
          else 0) ∧
        (if jsFindIndex (fun t => t.id == currentActiveTabId ctrl internal) tabs <
            (tabs.length : Int) - 1
          then jsFindIndex (fun t => t.id == currentActiveTabId ctrl internal) tabs + 1
          else 0) < (tabs.length : Int) := by
      split <;> omega
    obtain ⟨n, hn, hnlt⟩ : ∃ n : Nat,
        (if jsFindIndex (fun t => t.id == currentActiveTabId ctrl internal) tabs <
            (tabs.length : Int) - 1
          then jsFindIndex (fun t => t.id == currentActiveTabId ctrl internal) tabs + 1
          else 0) = (n : Int) ∧ n < tabs.length := by
      refine ⟨_, (Int.toNat_of_nonneg hni0.1).symm, ?_⟩
      omega
    refine ⟨tabs.get ⟨n, hnlt⟩, tabs.get_mem n hnlt, ?_⟩
    rw [handleKeyDown_arrowRight, hn, jsGetElem_eq_get tabs n hnlt]

theorem stepInternal_preserves (tabs : List TabObject) (ctrl : Option String)
    (internal : String) (e : Event) (hv : validEvent tabs e)
    (hinv : activeIdInvariant tabs internal) :
    activeIdInvariant tabs (stepInternal tabs ctrl internal e) := by
  cases e with
  | click t =>
    simp only [stepInternal, handleTabClick]
    split
    · exact hinv
    · exact Or.inr hv
  | focus t =>
    simp only [stepInternal, handleTabFocus]
    split
    · split
      · exact hinv
      · exact Or.inr hv
    · exact hinv
  | keydown k =>
    cases k with
    | other => exact hinv
    | arrowLeft =>
      by_cases hne : tabs = []
      · subst hne
        simp only [stepInternal, handleKeyDown_arrowLeft, jsGetElem, List.get?_nil]
        split
        · rename_i h
          split at h <;> exact Option.noConfusion h
        · exact hinv
      · obtain ⟨t, hmem, heq⟩ := (handleKeyDown_arrow_notifies tabs ctrl internal hne).1
        simp only [stepInternal, heq]
        split
        · exact hinv
        · exact Or.inr (List.mem_map_of_mem TabObject.id hmem)
    | arrowRight =>
      by_cases hne : tabs = []
      · subst hne
        simp only [stepInternal, handleKeyDown_arrowRight, jsGetElem, List.get?_nil]
        split
        · rename_i h
          split at h <;> exact Option.noConfusion h
        · exact hinv
      · obtain ⟨t, hmem, heq⟩ := (handleKeyDown_arrow_notifies tabs ctrl internal hne).2
        simp only [stepInternal, heq]
        split
        · exact hinv
        · exact Or.inr (List.mem_map_of_mem TabObject.id hmem)

theorem runTrace_foldl_invariant (tabs : List TabObject) :
    ∀ (frames : List Frame) (internal : String),
      (∀ f ∈ frames, f.tabs = tabs ∧ validEvent tabs f.event) →
      activeIdInvariant tabs internal →
      activeIdInvariant tabs
        (frames.foldl (fun s f => stepInternal f.tabs f.ctrl s f.event) internal)
  | [], _, _, hinv => hinv
  | f :: rest, internal, hf, hinv => by
    have h1 := hf f (List.mem_cons_self f rest)
    rw [List.foldl_cons]
    apply runTrace_foldl_invariant tabs rest _
      (fun g hg => hf g (List.mem_cons_of_mem f hg))
    rw [h1.1]
    exact stepInternal_preserves tabs f.ctrl internal f.event h1.2 hinv

theorem foldlM_obj :
    ∀ (l : List TabInput) (n : Nat) (acc : List String),
      (List.enumFrom n (l.map EntryInput.obj)).foldlM
        (fun acc p => do
          let errs ← entryErrorsE p.1 p.2
          pure (acc ++ errs)) acc
        = Except.ok ((List.enumFrom n l).foldl
            (fun acc p => acc ++ entryErrors p.1 p.2) acc)
  | [], _, _ => rfl
  | t :: rest, n, acc => by
    rw [List.map_cons, List.enumFrom_cons, List.foldlM_cons, List.enumFrom_cons,
      List.foldl_cons]
    show (Except.ok (acc ++ entryErrors n t) >>= fun b =>
        (List.enumFrom (n + 1) (rest.map EntryInput.obj)).foldlM _ b) = _
    rw [show ∀ (b : List String) (g : List String → Except String (List String)),
        (Except.ok b >>= g) = g b from fun _ _ => rfl]
    exact foldlM_obj rest (n + 1) (acc ++ entryErrors n t)

theorem mapM_obj :
    ∀ (l : List TabInput),
      (l.map EntryInput.obj).mapM entryIdE = Except.ok (l.map TabInput.id)
  | [] => rfl
  | t :: rest => by
    rw [List.map_cons, List.mapM_cons, List.map_cons]
    show (Except.ok t.id >>= fun b =>
        (rest.map EntryInput.obj).mapM entryIdE >>= fun bs => pure (b :: bs)) = _
    rw [show ∀ (b : Option String) (g : Option String → Except String (List (Option String))),
        (Except.ok b >>= g) = g b from fun _ _ => rfl, mapM_obj rest]
    rfl

/-- Claim C2: for a non-empty tab list with distinct ids and the tab at
index `i` active, ArrowLeft selects index `i - 1` (wrapping from index
`0` to the last index) and ArrowRight selects index `i + 1` (wrapping
from the last index to `0`); in uncontrolled mode the internal active
id becomes the selected tab's id and the notification carries the
selected descriptor (and its affordance is focused). -/
theorem tabs_C2 (tabs : List TabObject) (i j k : Nat) (hi : i < tabs.length)
    (hj : j < tabs.length) (hk : k < tabs.length)
    (hnd : (tabs.map TabObject.id).Nodup)
    (hjdef : j = if i = 0 then tabs.length - 1 else i - 1)
    (hkdef : k = if i = tabs.length - 1 then 0 else i + 1) :
    handleKeyDown tabs none (tabs.get ⟨i, hi⟩).id Key.arrowLeft =
      ⟨(tabs.get ⟨j, hj⟩).id, some (tabs.get ⟨j, hj⟩), some (tabs.get ⟨j, hj⟩).id⟩ ∧
    handleKeyDown tabs none (tabs.get ⟨i, hi⟩).id Key.arrowRight =
      ⟨(tabs.get ⟨k, hk⟩).id, some (tabs.get ⟨k, hk⟩), some (tabs.get ⟨k, hk⟩).id⟩ := by
  have hcur : currentActiveTabId none (tabs.get ⟨i, hi⟩).id = (tabs.get ⟨i, hi⟩).id := rfl
  have hci := jsFindIndex_get_of_nodup tabs hnd i hi
  constructor
  · rw [handleKeyDown_arrowLeft]
    simp only [hcur, hci]
    rcases Nat.eq_zero_or_pos i with h0 | h0
    · subst h0
      rw [if_neg (by omega)]
      have hc : (tabs.length : Int) - 1 = ((tabs.length - 1 : Nat) : Int) := by omega
      rw [hc, jsGetElem_eq_get tabs (tabs.length - 1) (by omega)]
      have hjv : j = tabs.length - 1 := by simpa using hjdef
      subst hjv
      rfl
    · rw [if_pos (by omega)]
      have hc : (i : Int) - 1 = ((i - 1 : Nat) : Int) := by omega
      rw [hc, jsGetElem_eq_get tabs (i - 1) (by omega)]
      have hjv : j = i - 1 := by
        rw [hjdef, if_neg (by omega)]
      subst hjv
      rfl
  · rw [handleKeyDown_arrowRight]
    simp only [hcur, hci]
    rcases Nat.lt_or_ge i (tabs.length - 1) with h0 | h0
    · rw [if_pos (by omega)]
      have hc : (i : Int) + 1 = ((i + 1 : Nat) : Int) := by omega
      rw [hc, jsGetElem_eq_get tabs (i + 1) (by omega)]
      have hkv : k = i + 1 := by
        rw [hkdef, if_neg (by omega)]
      subst hkv
      rfl
    · have hlast : i = tabs.length - 1 := by omega
      rw [if_neg (by omega)]
      rw [show (0 : Int) = ((0 : Nat) : Int) from rfl,
        jsGetElem_eq_get tabs 0 (by omega)]
      have hkv : k = 0 := by
        rw [hkdef, if_pos hlast]
      subst hkv
      rfl

/-- Claim C1 (amended): as long as the host keeps the tab list fixed
across renders and any host-supplied active id at the observed render
is an id of that list, every reachable state satisfies the active-id
invariant: the active id is empty (empty list) or names a tab of the
list.  (As stated — with the tab list or the host-supplied id allowed
to change arbitrarily across renders — the claim is refuted by
`tabs_C1_counterexample`.) -/
theorem tabs_C1 (tabs : List TabObject) (frames : List Frame)
    (finalCtrl : Option String)
    (hframes : ∀ f ∈ frames, f.tabs = tabs ∧ validEvent tabs f.event)
    (hctrl : ∀ a, finalCtrl = some a → a ∈ tabs.map TabObject.id) :
    activeIdInvariant tabs
      (currentActiveTabId finalCtrl (runTrace (some tabs) frames)) := by
  cases finalCtrl with
  | some a => exact Or.inr (hctrl a rfl)
  | none =>
    show activeIdInvariant tabs (runTrace (some tabs) frames)
    unfold runTrace
    apply runTrace_foldl_invariant tabs frames _ hframes
    cases tabs with
    | nil => exact Or.inl ⟨rfl, rfl⟩
    | cons t rest => exact Or.inr (by simp [initialInternalActiveTabId])

theorem tabs_C1_witness :
    activeIdInvariant demoTabs
      (currentActiveTabId none
        (runTrace (some demoTabs) [⟨demoTabs, none, Event.click "b"⟩])) :=
  tabs_C1 demoTabs [⟨demoTabs, none, Event.click "b"⟩] none
    (fun f hf => by
      have hfe : f = ⟨demoTabs, none, Event.click "b"⟩ := List.mem_singleton.1 hf
      subst hfe
      exact ⟨rfl, (by decide : "b" ∈ demoTabs.map TabObject.id)⟩)
    (fun a ha => Option.noConfusion ha)

/-- Claim C1 as stated is false: mount (uncontrolled) with the
single-tab list `[a]`, deliver one valid click on `a`, then re-render
with the different list `[b]`; the internal active id is still `a`,
which names no tab of the current list even though the list is
non-empty — the stale-seed gap the spec itself notes in §9. -/
theorem tabs_C1_counterexample :
    (∀ f ∈ ([⟨[⟨"a", "Tab A", .fragment⟩], none, Event.click "a"⟩] : List Frame),
      validEvent f.tabs f.event) ∧
    ¬ activeIdInvariant [⟨"b", "Tab B", .fragment⟩]
        (currentActiveTabId none
          (runTrace (some [⟨"a", "Tab A", .fragment⟩])
            [⟨[⟨"a", "Tab A", .fragment⟩], none, Event.click "a"⟩])) := by
  constructor
  · intro f hf
    have hfe : f = ⟨[⟨"a", "Tab A", .fragment⟩], none, Event.click "a"⟩ :=
      List.mem_singleton.1 hf
    subst hfe
    exact (by decide :
      "a" ∈ [(⟨"a", "Tab A", .fragment⟩ : TabObject)].map TabObject.id)
  · simp only [activeIdInvariant]
    decide

theorem tabs_C2_witness :
    (demoTabs.map TabObject.id).Nodup ∧
    (handleKeyDown demoTabs none (demoTabs.get ⟨0, by decide⟩).id Key.arrowLeft =
      ⟨(demoTabs.get ⟨2, by decide⟩).id, some (demoTabs.get ⟨2, by decide⟩),
        some (demoTabs.get ⟨2, by decide⟩).id⟩ ∧
     handleKeyDown demoTabs none (demoTabs.get ⟨0, by decide⟩).id Key.arrowRight =
      ⟨(demoTabs.get ⟨1, by decide⟩).id, some (demoTabs.get ⟨1, by decide⟩),
        some (demoTabs.get ⟨1, by decide⟩).id⟩) :=
  ⟨by decide, tabs_C2 demoTabs 0 2 1 (by decide) (by decide) (by decide)
    (by decide) (by decide) (by decide)⟩

/-- Claim C3: for every non-empty input list the validator output is
exactly the specification ordering — per-entry problems in ascending
index order, within each entry missing `id`, then missing `label`,
then missing `content` (the latter only when `null`/`undefined`), and
the single duplicate-id problem, if any, after all per-entry
problems. -/
theorem tabs_C3 (ts : List TabInput) (h : ts ≠ []) :
    validateTabs (some ts) = specProblems ts :=
  validateTabs_eq_specProblems ts h

theorem tabs_C3_witness :
    ([⟨none, some "Tab 1", none⟩, ⟨some "tab2", none, some .fragment⟩] :
        List TabInput) ≠ [] ∧
    validateTabs
        (some [⟨none, some "Tab 1", none⟩, ⟨some "tab2", none, some .fragment⟩]) =
      specProblems [⟨none, some "Tab 1", none⟩, ⟨some "tab2", none, some .fragment⟩] :=
  ⟨by decide, tabs_C3 _ (by decide)⟩

theorem exceptBindOk {α β : Type} (x : α) (g : α → Except String β) :
    (Except.ok x >>= g : Except String β) = g x := rfl

/-- Claim C4 (amended): for every input whose entries are objects —
fields possibly missing — and for an absent list, the validator
terminates without throwing and returns the pure problem sequence; it
is a function of the input alone.  (As stated — over every possible
TabListInput including `null`/`undefined` entries — the claim is
refuted by `tabs_C4_counterexample`: reading `.id` off a `null`
element throws.) -/
theorem tabs_C4 (tabs : Option (List TabInput)) :
    validateTabsE (Option.map (List.map EntryInput.obj) tabs) =
      Except.ok (validateTabs tabs) := by
  cases tabs with
  | none => rfl
  | some ts =>
    by_cases h : ts.length = 0
    · have hnil : ts = [] := List.length_eq_zero.mp h
      subst hnil
      rfl
    · show validateTabsE (some (ts.map EntryInput.obj)) =
        Except.ok (validateTabs (some ts))
      simp only [validateTabsE, validateTabs, List.length_map]
      rw [if_neg h, if_neg h]
      rw [show List.enum (ts.map EntryInput.obj) =
          List.enumFrom 0 (ts.map EntryInput.obj) from rfl,
        show List.enum ts = List.enumFrom 0 ts from rfl,
        foldlM_obj ts 0 [], exceptBindOk, mapM_obj ts, exceptBindOk]
      rfl

/-- Claim C4 as stated is false on the code: a tab list containing a
`null` element makes the validation pass throw a `TypeError` when the
per-entry loop reads the element's `id`. -/
theorem tabs_C4_counterexample :
    validateTabsE (some [EntryInput.nullEntry]) = Except.error typeErrorMsg := rfl

/-- Claim C5: a focus event naming the already-active tab is a no-op —
internal id unchanged and no notification — while a focus event naming
a different id present in the list sets the internal id (uncontrolled
mode; unchanged when controlled) and notifies with that tab's
descriptor. -/
theorem tabs_C5 (tabs : List TabObject) (ctrl : Option String) (internal : String)
    (tabId : String) (hmem : tabId ∈ tabs.map TabObject.id) :
    handleTabFocus tabs ctrl internal (currentActiveTabId ctrl internal) =
      ⟨internal, none⟩ ∧
    (tabId ≠ currentActiveTabId ctrl internal →
      ∃ t, t ∈ tabs ∧ t.id = tabId ∧
        handleTabFocus tabs ctrl internal tabId =
          ⟨if ctrl.isSome then internal else tabId, some t⟩) := by
  constructor
  · unfold handleTabFocus
    rw [if_neg (by simp)]
  · intro hne
    obtain ⟨t, ht1, ht2, ht3⟩ := find_by_id_of_mem tabs tabId hmem
    refine ⟨t, ht1, ht2, ?_⟩
    unfold handleTabFocus
    rw [if_pos hne, ht3]

theorem tabs_C5_witness :
    "b" ∈ demoTabs.map TabObject.id ∧
    (handleTabFocus demoTabs none "a" (currentActiveTabId none "a") = ⟨"a", none⟩ ∧
     ("b" ≠ currentActiveTabId none "a" →
       ∃ t, t ∈ demoTabs ∧ t.id = "b" ∧
         handleTabFocus demoTabs none "a" "b" =
           ⟨if (none : Option String).isSome then "a" else "b", some t⟩)) :=
  ⟨by decide, tabs_C5 demoTabs none "a" "b" (by decide)⟩

/-- Claim C6: clicking any tab id present in the list — including the
already-active one, there being no no-op guard — notifies with the
matched descriptor and, in uncontrolled mode, sets the internal active
id to the clicked id. -/
theorem tabs_C6 (tabs : List TabObject) (ctrl : Option String) (internal : String)
    (tabId : String) (hmem : tabId ∈ tabs.map TabObject.id) :
    ∃ t, t ∈ tabs ∧ t.id = tabId ∧
      handleTabClick tabs ctrl internal tabId =
        ⟨if ctrl.isSome then internal else tabId, some t⟩ := by
  obtain ⟨t, ht1, ht2, ht3⟩ := find_by_id_of_mem tabs tabId hmem
  refine ⟨t, ht1, ht2, ?_⟩
  unfold handleTabClick
  rw [ht3]

theorem tabs_C6_witness :
    "a" ∈ demoTabs.map TabObject.id ∧
    ∃ t, t ∈ demoTabs ∧ t.id = "a" ∧
      handleTabClick demoTabs none "a" "a" =
        ⟨if (none : Option String).isSome then "a" else "a", some t⟩ :=
  ⟨by decide, tabs_C6 demoTabs none "a" "a" (by decide)⟩

/-- Claim C7: in controlled mode no click, focus, or keydown event
mutates the internal active id, the rendered active id is exactly the
host-supplied prop, and the change notification still fires with the
would-be newly active descriptor (for clicks on a listed id and, on a
non-empty list, for both arrow keys). -/
theorem tabs_C7 (tabs : List TabObject) (a internal tabId : String) (k : Key)
    (hmem : tabId ∈ tabs.map TabObject.id) :
    currentActiveTabId (some a) internal = a ∧
    (handleTabClick tabs (some a) internal tabId).internalActiveTabId = internal ∧
    (handleTabFocus tabs (some a) internal tabId).internalActiveTabId = internal ∧
    (handleKeyDown tabs (some a) internal k).internalActiveTabId = internal ∧
    (∃ t, t ∈ tabs ∧ t.id = tabId ∧
      (handleTabClick tabs (some a) internal tabId).notified = some t) ∧
    (tabs ≠ [] →
      (∃ t, t ∈ tabs ∧
        (handleKeyDown tabs (some a) internal Key.arrowLeft).notified = some t) ∧
      (∃ t, t ∈ tabs ∧
        (handleKeyDown tabs (some a) internal Key.arrowRight).notified = some t)) := by
  refine ⟨rfl, by simp [handleTabClick], ?_, ?_, ?_, ?_⟩
  · unfold handleTabFocus
    split <;> simp
  · cases k with
    | other => rfl
    | arrowLeft =>
      rw [handleKeyDown_arrowLeft]
      split <;> simp
    | arrowRight =>
      rw [handleKeyDown_arrowRight]
      split <;> simp
  · obtain ⟨t, ht1, ht2, ht3⟩ := find_by_id_of_mem tabs tabId hmem
    exact ⟨t, ht1, ht2, ht3⟩
  · intro hne
    obtain ⟨hl, hr⟩ := handleKeyDown_arrow_notifies tabs (some a) internal hne
    obtain ⟨t1, hm1, he1⟩ := hl
    obtain ⟨t2, hm2, he2⟩ := hr
    exact ⟨⟨t1, hm1, by rw [he1]⟩, ⟨t2, hm2, by rw [he2]⟩⟩

theorem tabs_C7_witness :
    "b" ∈ demoTabs.map TabObject.id ∧
    (currentActiveTabId (some "a") "x" = "a" ∧
     (handleTabClick demoTabs (some "a") "x" "b").internalActiveTabId = "x" ∧
     (handleTabFocus demoTabs (some "a") "x" "b").internalActiveTabId = "x" ∧
     (handleKeyDown demoTabs (some "a") "x" Key.arrowLeft).internalActiveTabId = "x" ∧
     (∃ t, t ∈ demoTabs ∧ t.id = "b" ∧
       (handleTabClick demoTabs (some "a") "x" "b").notified = some t) ∧
     (demoTabs ≠ [] →
       (∃ t, t ∈ demoTabs ∧
         (handleKeyDown demoTabs (some "a") "x" Key.arrowLeft).notified = some t) ∧
       (∃ t, t ∈ demoTabs ∧
         (handleKeyDown demoTabs (some "a") "x" Key.arrowRight).notified = some t))) :=
  ⟨by decide, tabs_C7 demoTabs "a" "x" "b" Key.arrowLeft (by decide)⟩

/-- Claim C8: the validator emits the duplicate-id problem exactly once
when any duplicate exists among the non-empty ids — however many
entries or pairs collide — and not at all otherwise; entries with
missing or empty ids are excluded from the check. -/
theorem tabs_C8 (ts : List TabInput) (h : ts ≠ []) :
    (validateTabs (some ts)).count dupMsg =
      if (nonEmptyIds ts).Nodup then 0 else 1 := by
  rw [validateTabs_eq_specProblems ts h, specProblems, List.count_append,
    specPerEntry_count_dupMsg, specDup]
  split
  · rfl
  · simp

theorem tabs_C8_witness :
    ([⟨some "x", some "L", some .fragment⟩, ⟨some "", some "M", some .fragment⟩,
        ⟨none, some "N", some .fragment⟩, ⟨some "x", some "P", some .fragment⟩] :
      List TabInput) ≠ [] ∧
    (validateTabs (some [⟨some "x", some "L", some .fragment⟩,
        ⟨some "", some "M", some .fragment⟩, ⟨none, some "N", some .fragment⟩,
        ⟨some "x", some "P", some .fragment⟩])).count dupMsg =
      (if (nonEmptyIds [⟨some "x", some "L", some .fragment⟩,
          ⟨some "", some "M", some .fragment⟩, ⟨none, some "N", some .fragment⟩,
          ⟨some "x", some "P", some .fragment⟩]).Nodup then 0 else 1) :=
  ⟨by decide, tabs_C8 _ (by decide)⟩

/-- Claim C9: a non-empty list whose entries all carry a truthy id, a
truthy label, and a non-null content, with the non-empty ids pairwise
distinct, validates with an empty problem sequence. -/
theorem tabs_C9 (ts : List TabInput) (hne : ts ≠ [])
    (hgood : ∀ t ∈ ts, jsFalsyStr t.id = false ∧ jsFalsyStr t.label = false ∧
      t.content ≠ none)
    (hnd : (nonEmptyIds ts).Nodup) :
    validateTabs (some ts) = [] := by
  rw [validateTabs_eq_specProblems ts hne, specProblems,
    specPerEntry_nil_of_good 0 ts hgood, specDup, if_pos hnd]
  rfl

theorem tabs_C9_witness :
    ([⟨some "a", some "Tab A", some .fragment⟩,
        ⟨some "b", some "Tab B", some (.text "")⟩] : List TabInput) ≠ [] ∧
    validateTabs (some [⟨some "a", some "Tab A", some .fragment⟩,
        ⟨some "b", some "Tab B", some (.text "")⟩]) = [] :=
  ⟨by decide, tabs_C9 _ (by decide) (by decide) (by decide)⟩

/-- Claim C10: an entry whose `id` is the empty string gets the
missing-id problem, and an entry whose `label` is empty or absent gets
the missing-label problem — the falsy-but-defined exemption granted to
`content` does not extend to `id` or `label`. -/
theorem tabs_C10 (ts : List TabInput) (i : Nat) (hi : i < ts.length) :
    ((ts.get ⟨i, hi⟩).id = some "" →
      missingFieldMsg i "id" ∈ validateTabs (some ts)) ∧
    (jsFalsyStr (ts.get ⟨i, hi⟩).label = true →
      missingFieldMsg i "label" ∈ validateTabs (some ts)) := by
  have hne : ts ≠ [] := by
    intro h
    subst h
    simp at hi
  constructor
  · intro hid
    rw [validateTabs_eq_specProblems ts hne, specProblems]
    apply List.mem_append_left
    apply mem_specPerEntry_of_mem ts 0 i hi
    rw [Nat.zero_add]
    unfold specEntryProblems
    apply List.mem_append_left
    apply List.mem_append_left
    rw [if_pos (Or.inr hid)]
    exact List.mem_singleton.2 rfl
  · intro hlab
    rw [validateTabs_eq_specProblems ts hne, specProblems]
    apply List.mem_append_left
    apply mem_specPerEntry_of_mem ts 0 i hi
    rw [Nat.zero_add]
    unfold specEntryProblems
    apply List.mem_append_left
    apply List.mem_append_right
    rw [if_pos ((jsFalsyStr_iff _).1 hlab)]
    exact List.mem_singleton.2 rfl

theorem tabs_C10_witness :
    (([⟨some "", none, some .fragment⟩] : List TabInput).get ⟨0, by decide⟩).id =
      some "" ∧
    jsFalsyStr (([⟨some "", none, some .fragment⟩] : List TabInput).get
      ⟨0, by decide⟩).label = true ∧
    missingFieldMsg 0 "id" ∈ validateTabs (some [⟨some "", none, some .fragment⟩]) ∧
    missingFieldMsg 0 "label" ∈ validateTabs (some [⟨some "", none, some .fragment⟩]) :=
  ⟨by decide, by decide,
   (tabs_C10 [⟨some "", none, some .fragment⟩] 0 (by decide)).1 (by decide),
   (tabs_C10 [⟨some "", none, some .fragment⟩] 0 (by decide)).2 (by decide)⟩
